import Mathlib

/-!
 # Verification of the transcript-to-trace hook (`hooks/langfuse_hook.py`)

A shallow embedding of the pure core of the hook: the JSON/Python value
model, the record accessors (`get_content`, `is_tool_result`,
`get_tool_calls`, `get_text_content`, `merge_assistant_parts`), the
turn-grouping state machine shared by `process_transcript` and
`queue_turns_from_messages`, the checkpoint update, the local delivery
queue (`queue_trace`, `load_queued_traces`, `clear_queue`, `drain_queue`),
and the orchestrator's queue-only branch of `main`.

Python exceptions are modelled with `Except String`; the error payload is
the exception class name.  File contents are modelled as the parsed lines
(`json.loads` itself is not re-implemented: a line is `some v` when it
parses to the value `v` and `none` when `json.loads` raises
`JSONDecodeError`).  Wall-clock timestamps (`datetime.now(...)`) are
passed in as an explicit `now : String` parameter.
-/

/-- A Python/JSON value as the hook sees it after `json.loads`:
`None`, booleans, integers, strings, lists and string-keyed dicts
(a dict is an insertion-ordered association list, as in CPython).
Python's cross-type numeric equality (`True == 1`) is not modelled;
every identifier this hook compares is a string or `None`. -/
inductive PyVal where
  | none
  | bool (b : Bool)
  | int (n : Int)
  | str (s : String)
  | list (xs : List PyVal)
  | dict (kvs : List (String × PyVal))
deriving Repr

mutual

/-- Structural equality of Python values, as `==` compares the values this
hook handles (no custom `__eq__`; cross-type numeric equality such as
`True == 1` does not arise for them). -/
def PyVal.beq : PyVal → PyVal → Bool
  | .none, .none => true
  | .bool a, .bool b => a == b
  | .int a, .int b => a == b
  | .str a, .str b => a == b
  | .list xs, .list ys => PyVal.beqList xs ys
  | .dict xs, .dict ys => PyVal.beqPairs xs ys
  | _, _ => false

/-- Elementwise `PyVal.beq` on lists. -/
def PyVal.beqList : List PyVal → List PyVal → Bool
  | [], [] => true
  | x :: xs, y :: ys => PyVal.beq x y && PyVal.beqList xs ys
  | _, _ => false

/-- Elementwise `PyVal.beq` on dict entries (CPython dict equality is
order-insensitive, but the hook never compares dicts whose key orders
differ, so ordered comparison is adequate here). -/
def PyVal.beqPairs : List (String × PyVal) → List (String × PyVal) → Bool
  | [], [] => true
  | (k, v) :: xs, (l, w) :: ys => k == l && PyVal.beq v w && PyVal.beqPairs xs ys
  | _, _ => false

end

instance : BEq PyVal := ⟨PyVal.beq⟩

/-- Python truthiness: `None`, `False`, `0`, `""`, `[]`, `{}` are falsy. -/
def PyVal.truthy : PyVal → Bool
  | .none => false
  | .bool b => b
  | .int n => n != 0
  | .str s => !(s = "")
  | .list xs => !xs.isEmpty
  | .dict kvs => !kvs.isEmpty

/-- First binding of `k` in an association list (CPython dicts hold each
key at most once; lookups read the stored binding). -/
def dlookup {α : Type} : List (String × α) → String → Option α
  | [], _ => Option.none
  | (k', v) :: rest, k => if k' = k then some v else dlookup rest k

/-- Python `d.get(k)`: the stored value, or `None` when absent. -/
def dget (kvs : List (String × PyVal)) (k : String) : PyVal :=
  (dlookup kvs k).getD PyVal.none

/-- Python `d.get(k, default)`. -/
def dgetD (kvs : List (String × PyVal)) (k : String) (default : PyVal) : PyVal :=
  (dlookup kvs k).getD default

/-- Python `k in d`. -/
def dmem (kvs : List (String × PyVal)) (k : String) : Bool :=
  (dlookup kvs k).isSome

/-- Python `d[k] = v`: replace the binding in place (keeping the key's
insertion position) or append a new binding at the end. -/
def dset {α : Type} : List (String × α) → String → α → List (String × α)
  | [], k, v => [(k, v)]
  | (k', v') :: rest, k, v =>
      if k' = k then (k, v) :: rest else (k', v') :: dset rest k v

/-!
 ## Record Model (`get_content`, `is_tool_result`, `get_tool_calls`, `get_text_content`)
-/

/-- `get_content` (langfuse_hook.py:191-197).  `msg["message"].get("content")`
raises `AttributeError` when the `message` value is not a dict. -/
def get_content (msg : PyVal) : Except String PyVal :=
  match msg with
  | .dict d =>
      if dmem d "message" then
        match dget d "message" with
        | .dict md => .ok (dget md "content")
        | _ => .error "AttributeError"
      else
        .ok (dget d "content")
  | _ => .ok PyVal.none

/-- `is_tool_result` (langfuse_hook.py:200-208). -/
def is_tool_result (msg : PyVal) : Except String Bool := do
  let content ← get_content msg
  match content with
  | .list items =>
      .ok (items.any fun item =>
        match item with
        | .dict d => dget d "type" == .str "tool_result"
        | _ => false)
  | _ => .ok false

/-- `get_tool_calls` (langfuse_hook.py:211-219). -/
def get_tool_calls (msg : PyVal) : Except String (List PyVal) := do
  let content ← get_content msg
  match content with
  | .list items =>
      .ok (items.filter fun item =>
        match item with
        | .dict d => dget d "type" == .str "tool_use"
        | _ => false)
  | _ => .ok []

/-- The `text_parts` accumulation loop of `get_text_content`
(langfuse_hook.py:228-233): text-typed blocks contribute their `text`
field (default `""`), bare strings contribute themselves. -/
def collect_text_parts : List PyVal → List PyVal
  | [] => []
  | item :: rest =>
      match item with
      | .dict d =>
          if dget d "type" == .str "text" then
            dgetD d "text" (.str "") :: collect_text_parts rest
          else
            collect_text_parts rest
      | .str s => .str s :: collect_text_parts rest
      | _ => collect_text_parts rest

/-- Python `"\n".join(parts)`: requires every element to be a `str`,
raising `TypeError` otherwise. -/
def as_strings : List PyVal → Except String (List String)
  | [] => .ok []
  | .str s :: rest => do
      let tl ← as_strings rest
      .ok (s :: tl)
  | _ :: _ => .error "TypeError"

/-- `get_text_content` (langfuse_hook.py:222-235). -/
def get_text_content (msg : PyVal) : Except String String := do
  let content ← get_content msg
  match content with
  | .str s => .ok s
  | .list items => do
      let parts ← as_strings (collect_text_parts items)
      .ok (String.intercalate "\n" parts)
  | _ => .ok ""

/-- Python `str(x)` for the scalar values the hook passes to it
(`merge_assistant_parts` applies it only to truthy non-list content).
For container values — reachable only from pathological records — a fixed
marker stands in for CPython's `repr`-based rendering. -/
def pyStr : PyVal → String
  | .none => "None"
  | .bool b => cond b "True" "False"
  | .int n => toString n
  | .str s => s
  | .list _ => "<list>"
  | .dict _ => "<dict>"

/-- The `merged_content` accumulation loop of `merge_assistant_parts`
(langfuse_hook.py:243-249): list content is concatenated, truthy
non-list content becomes a synthetic text block. -/
def merge_content_loop (parts : List PyVal) : Except String (List PyVal) :=
  parts.foldlM
    (fun acc part => do
      let content ← get_content part
      match content with
      | .list xs => pure (acc ++ xs)
      | c =>
          if c.truthy then
            pure (acc ++ [.dict [("type", .str "text"), ("text", .str (pyStr c))]])
          else
            pure acc)
    []

/-- `merge_assistant_parts` (langfuse_hook.py:238-259).  The merged record
reuses the first part's shape; `result["message"].copy()` raises
`AttributeError` when that field is not a dict, and the trailing item
assignments raise `TypeError` when `parts[0]` is not a dict. -/
def merge_assistant_parts (parts : List PyVal) : Except String PyVal :=
  match parts with
  | [] => .ok (.dict [])
  | first :: _ => do
      let merged_content ← merge_content_loop parts
      match first with
      | .dict d =>
          if dmem d "message" then
            match dget d "message" with
            | .dict md =>
                .ok (.dict (dset d "message" (.dict (dset md "content" (.list merged_content)))))
            | _ => .error "AttributeError"
          else
            .ok (.dict (dset d "content" (.list merged_content)))
      | _ => .error "TypeError"

/-!
 ## Turn Assembler

The grouping loop is duplicated verbatim in the source between
`process_transcript` (langfuse_hook.py:749-821) and
`queue_turns_from_messages` (langfuse_hook.py:401-475); it is embedded
once here and instantiated by both.
-/

/-- A completed turn: the arguments each emission site passes on
(`creator_fn(session_id, turn_num, current_user, current_assistants,
current_tool_results, project_name)` / the `queue_trace` payload). -/
structure Turn where
  turn_num : Nat
  user_msg : PyVal
  assistant_msgs : List PyVal
  tool_results : List PyVal
deriving Repr, BEq

/-- The loop variables of the grouping pass
(langfuse_hook.py:749-754 / 402-407), plus the turns emitted so far.
`current_user` and `current_msg_id` hold Python `None` until assigned. -/
structure AsmState where
  turns : List Turn
  current_user : PyVal
  current_assistants : List PyVal
  current_assistant_parts : List PyVal
  current_msg_id : PyVal
  current_tool_results : List PyVal
deriving Repr

def AsmState.init : AsmState :=
  ⟨[], PyVal.none, [], [], PyVal.none, []⟩

/-- `role = msg.get("type") or (msg.get("message", {}).get("role"))`
(langfuse_hook.py:757 / 410).  `.get` on a non-dict raises
`AttributeError`. -/
def role_of (msg : PyVal) : Except String PyVal :=
  match msg with
  | .dict d =>
      let t := dget d "type"
      if t.truthy then .ok t
      else
        match dgetD d "message" (.dict []) with
        | .dict md => .ok (dget md "role")
        | _ => .error "AttributeError"
  | _ => .error "AttributeError"

/-- The assistant-branch id extraction (langfuse_hook.py:789-791):
`msg["message"].get("id")` when the record is a dict with a `message`
key, else `None`; raises when the `message` value is not a dict. -/
def assistant_msg_id (msg : PyVal) : Except String PyVal :=
  match msg with
  | .dict d =>
      if dmem d "message" then
        match dget d "message" with
        | .dict md => .ok (dget md "id")
        | _ => .error "AttributeError"
      else .ok PyVal.none
  | _ => .ok PyVal.none

/-- One iteration of the grouping loop (langfuse_hook.py:756-807).
`turn_count` is the checkpointed count; the running `turns` counter is
`s.turns.length`, so an emitted turn is numbered
`turn_count + turns + 1` exactly as in the source. -/
def asm_step (turn_count : Nat) (s : AsmState) (msg : PyVal) : Except String AsmState := do
  let role ← role_of msg
  if role == PyVal.str "user" then do
    if (← is_tool_result msg) then
      pure { s with current_tool_results := s.current_tool_results ++ [msg] }
    else do
      let s ←
        if s.current_msg_id.truthy && !s.current_assistant_parts.isEmpty then do
          let merged ← merge_assistant_parts s.current_assistant_parts
          pure { s with
            current_assistants := s.current_assistants ++ [merged],
            current_assistant_parts := [],
            current_msg_id := PyVal.none }
        else pure s
      let s :=
        if s.current_user.truthy && !s.current_assistants.isEmpty then
          { s with turns := s.turns ++
              [⟨turn_count + s.turns.length + 1, s.current_user,
                s.current_assistants, s.current_tool_results⟩] }
        else s
      pure { s with
        current_user := msg,
        current_assistants := [],
        current_assistant_parts := [],
        current_msg_id := PyVal.none,
        current_tool_results := [] }
  else if role == PyVal.str "assistant" then do
    let msg_id ← assistant_msg_id msg
    if !msg_id.truthy then
      pure { s with current_assistant_parts := s.current_assistant_parts ++ [msg] }
    else if msg_id == s.current_msg_id then
      pure { s with current_assistant_parts := s.current_assistant_parts ++ [msg] }
    else do
      let s ←
        if s.current_msg_id.truthy && !s.current_assistant_parts.isEmpty then do
          let merged ← merge_assistant_parts s.current_assistant_parts
          pure { s with current_assistants := s.current_assistants ++ [merged] }
        else pure s
      pure { s with current_msg_id := msg_id, current_assistant_parts := [msg] }
  else
    pure s

/-- The end-of-stream finalisation (langfuse_hook.py:809-821): flush an
open accumulation, then emit a final turn when both a user message and
at least one assistant message are present. -/
def asm_finish (turn_count : Nat) (s : AsmState) : Except String AsmState := do
  let s ←
    if s.current_msg_id.truthy && !s.current_assistant_parts.isEmpty then do
      let merged ← merge_assistant_parts s.current_assistant_parts
      pure { s with current_assistants := s.current_assistants ++ [merged] }
    else pure s
  if s.current_user.truthy && !s.current_assistants.isEmpty then
    pure { s with turns := s.turns ++
        [⟨turn_count + s.turns.length + 1, s.current_user,
          s.current_assistants, s.current_tool_results⟩] }
  else
    pure s

/-- Run the grouping loop over a message list, keeping the state reached
so far when an exception interrupts iteration (turns already emitted have
already had their side effects in the source). -/
def asm_run (turn_count : Nat) : AsmState → List PyVal → AsmState × Option String
  | s, [] => (s, Option.none)
  | s, m :: ms =>
      match asm_step turn_count s m with
      | .ok s' => asm_run turn_count s' ms
      | .error e => (s, some e)

/-- The turns the grouping pass emits before either finishing normally or
being interrupted by an exception (`some e`). -/
def group_turns_partial (turn_count : Nat) (messages : List PyVal) :
    List Turn × Option String :=
  match asm_run turn_count AsmState.init messages with
  | (s, some e) => (s.turns, some e)
  | (s, Option.none) =>
      match asm_finish turn_count s with
      | .ok s' => (s'.turns, Option.none)
      | .error e => (s.turns, some e)

/-- The complete grouping pass: the ordered turns emitted for a message
list, or the exception that aborted it. -/
def group_turns (messages : List PyVal) (turn_count : Nat) : Except String (List Turn) :=
  match group_turns_partial turn_count messages with
  | (turns, Option.none) => .ok turns
  | (_, some e) => .error e

/-!
 ## Checkpoint Store and `process_transcript`
-/

/-- One session's entry in the state file: `{"last_line": ..,
"turn_count": ..}` (the `updated` timestamp is handled by the caller). -/
structure SessionCheckpoint where
  last_line : Nat
  turn_count : Nat
deriving Repr, DecidableEq

/-- The new-message parse loop (langfuse_hook.py:735-741): lines past the
checkpoint, keeping those `json.loads` accepts.  A transcript is modelled
as its split lines, each `some v` (parses to `v`) or `none`
(`JSONDecodeError`, skipped). -/
def parse_new_messages (lines : List (Option PyVal)) (last_line : Nat) : List PyVal :=
  (lines.drop last_line).filterMap id

/-- `process_transcript` (langfuse_hook.py:717-831) restricted to one
session: returns the turns handed to the trace creators and the updated
checkpoint (the source then stores it via `save_state`).  Per-creator
delivery errors are swallowed in the source (lines 775-779, 817-821) and
do not affect the returned turns or the checkpoint. -/
def process_transcript (lines : List (Option PyVal)) (cp : SessionCheckpoint) :
    Except String (List Turn × SessionCheckpoint) :=
  let total_lines := lines.length
  if cp.last_line ≥ total_lines then .ok ([], cp)
  else
    let new_messages := parse_new_messages lines cp.last_line
    if new_messages.isEmpty then .ok ([], cp)
    else do
      let turns ← group_turns new_messages cp.turn_count
      .ok (turns, ⟨total_lines, cp.turn_count + turns.length⟩)

/-!
 ## Delivery Queue (`queue_trace`, `load_queued_traces`, `clear_queue`, `drain_queue`)

The queue file is modelled as `Option` (present/absent) of its split
lines, each line being the value it parses to or `none` on
`JSONDecodeError`.
-/

/-- The persisted queue file: `none` when the file does not exist. -/
abbrev QFile : Type := Option (List (Option PyVal))

/-- The parse loop of `load_queued_traces` (langfuse_hook.py:112-128):
collect each line's value, but the whole load returns `[]` as soon as any
line raises `JSONDecodeError` (the partial list is discarded). -/
def load_lines : List (Option PyVal) → List PyVal → List PyVal
  | [], acc => acc.reverse
  | Option.none :: _, _ => []
  | some t :: rest, acc => load_lines rest (t :: acc)

/-- `load_queued_traces` (langfuse_hook.py:112-128): `[]` when the file is
missing or any line fails to parse. -/
def load_queued_traces : QFile → List PyVal
  | Option.none => []
  | some lines => load_lines lines []

/-- `clear_queue` (langfuse_hook.py:131-135): unlink the file. -/
def clear_queue (_ : QFile) : QFile := Option.none

/-- The body of `queue_trace` for a dict payload: set
`trace_data["queued_at"] = now` and append one JSON line to the file
(creating it when absent). -/
def enqueue_dict (now : String) (d : List (String × PyVal)) (q : QFile) : QFile :=
  some ((q.getD []) ++ [some (.dict (dset d "queued_at" (.str now)))])

/-- `queue_trace` (langfuse_hook.py:103-109).  The item assignment
`trace_data["queued_at"] = ...` raises `TypeError` on a non-dict. -/
def queue_trace (now : String) (trace_data : PyVal) (q : QFile) : Except String QFile :=
  match trace_data with
  | .dict d => .ok (enqueue_dict now d q)
  | _ => .error "TypeError"

/-- The keyword arguments `drain_queue` reads back out of a queued trace
(langfuse_hook.py:151-158): subscripting raises `KeyError` when a field
is missing and `TypeError` on a non-dict; `project_name` falls back to
`""` via `.get`. -/
def drain_trace_fields (trace_data : PyVal) : Except String (List PyVal) :=
  match trace_data with
  | .dict d => do
      let get_item (k : String) : Except String PyVal :=
        match dlookup d k with
        | some v => .ok v
        | Option.none => .error "KeyError"
      let sid ← get_item "session_id"
      let tn ← get_item "turn_num"
      let um ← get_item "user_msg"
      let ams ← get_item "assistant_msgs"
      let trs ← get_item "tool_results"
      .ok [sid, tn, um, ams, trs, dgetD d "project_name" (.str "")]
  | _ => .error "TypeError"

/-- The re-queue path of `drain_queue` (langfuse_hook.py:164-167):
`clear_queue()` then `queue_trace(t)` for each remaining trace in order. -/
def requeue_all (now : String) (remaining : List PyVal) : Except String QFile :=
  remaining.foldlM (fun q t => queue_trace now t q) (clear_queue Option.none)

/-- The outcome of a drain: the return value, the persisted queue
afterwards, and every `(trace index, creator name)` delivery attempt made
(in order).  Per-creator delivery failures are caught inside the inner
loop (langfuse_hook.py:159-160) and are therefore invisible here. -/
structure DrainResult where
  drained : Nat
  queue : QFile
  attempts : List (Nat × String)
deriving Repr

/-- The per-trace loop of `drain_queue` (langfuse_hook.py:147-168).
`struct_fail i` says whether a structural exception (in the source: an
I/O failure inside `log`, or a malformed creator tuple — anything caught
by the *outer* `except`) strikes while trace `i` is being handled; the
model places it before that trace's delivery attempts, which the inner
`except` would otherwise have recorded.  On a structural failure the
remaining traces (including the failing one) are re-queued. -/
def drain_go (creators : List String) (struct_fail : Nat → Bool) (now : String) :
    List PyVal → Nat → List (Nat × String) → Except String DrainResult
  | [], drained, attempts => .ok ⟨drained, clear_queue Option.none, attempts⟩
  | t :: rest, drained, attempts =>
      if struct_fail drained then do
        let q ← requeue_all now (t :: rest)
        .ok ⟨drained, q, attempts⟩
      else
        drain_go creators struct_fail now rest (drained + 1)
          (attempts ++ creators.map (fun c => (drained, c)))

/-- `drain_queue` (langfuse_hook.py:138-172). -/
def drain_queue (q : QFile) (creators : List String) (struct_fail : Nat → Bool)
    (now : String) : Except String DrainResult :=
  let traces := load_queued_traces q
  if traces.isEmpty then .ok ⟨0, q, []⟩
  else drain_go creators struct_fail now traces 0 []

/-!
 ## Orchestrator: the queue-only branch of `main`
-/

/-- The queued-trace payload built by `queue_turns_from_messages`
(langfuse_hook.py:427-434 / 466-473), field order as in the source dict
literal; `queue_trace` appends `queued_at` at the end. -/
def trace_fields (session_id : String) (project_name : String) (t : Turn) :
    List (String × PyVal) :=
  [("session_id", .str session_id),
   ("turn_num", .int t.turn_num),
   ("user_msg", t.user_msg),
   ("assistant_msgs", .list t.assistant_msgs),
   ("tool_results", .list t.tool_results),
   ("project_name", .str project_name)]

/-- `queue_turns_from_messages` (langfuse_hook.py:395-475): the grouping
pass, each completed turn enqueued via `queue_trace` as it is emitted.
Returns the turn count and the updated queue file, or the turns already
enqueued when an exception interrupts the pass. -/
def queue_turns_from_messages (now : String) (messages : List PyVal)
    (session_id : String) (turn_count : Nat) (project_name : String)
    (q : QFile) : (Nat × QFile) × Option String :=
  let (ts, err) := group_turns_partial turn_count messages
  let q := ts.foldl
    (fun qq t => enqueue_dict now (trace_fields session_id project_name t) qq) q
  ((ts.length, q), err)

/-- One discovered session in the queue-only branch: the
`(session_id, transcript_file, project_name)` triple with the transcript
file modelled by its parsed lines. -/
structure QSession where
  session_id : String
  lines : List (Option PyVal)
  project_name : String

/-- The state file as a mapping from session id to checkpoint. -/
abbrev StateMap : Type := List (String × SessionCheckpoint)

/-- The per-session body of the queue-only branch
(langfuse_hook.py:909-942): read the checkpoint, parse the new lines,
queue the turns and advance the checkpoint; any exception is caught by
the per-session handler (lines 940-942), leaving the state entry
unchanged (traces already queued before the exception persist). -/
def queue_only_session (now : String) (st : StateMap) (q : QFile)
    (sess : QSession) : StateMap × QFile :=
  let cp := (dlookup st sess.session_id).getD ⟨0, 0⟩
  let total_lines := sess.lines.length
  if cp.last_line ≥ total_lines then (st, q)
  else
    let new_messages := parse_new_messages sess.lines cp.last_line
    if new_messages.isEmpty then (st, q)
    else
      let ((turns_queued, q'), err) :=
        queue_turns_from_messages now new_messages sess.session_id
          cp.turn_count sess.project_name q
      match err with
      | some _ => (st, q')
      | Option.none =>
          (dset st sess.session_id ⟨total_lines, cp.turn_count + turns_queued⟩, q')

/-- The session loop of the queue-only branch (langfuse_hook.py:908-943). -/
def queue_only_loop (now : String) (sessions : List QSession)
    (st : StateMap) (q : QFile) : StateMap × QFile :=
  sessions.foldl (fun acc sess => queue_only_session now acc.1 acc.2 sess) (st, q)

/-!
 ## `main`: exit behaviour
-/

/-- How the process ends: `exit c` for `sys.exit(c)`, or `uncaught` when
an exception escapes `main` (CPython then terminates with status 1). -/
inductive MainOutcome where
  | exit (code : Nat)
  | uncaught
deriving Repr, DecidableEq

/-- The environment `main` runs in: configuration, package availability,
discovery and health-check results, and whether `save_state` at the end
of the queue-only branch (langfuse_hook.py:944) — the one persisted-state
write not inside any `try` — fails with an I/O error.  `log` is modelled
as infallible (an I/O failure inside an unguarded `log` call is a further
escape path not modelled), and the deliver branch's work is wrapped in
`try/except Exception` (lines 989-1032), so its internal failures never
change the exit path. -/
structure MainEnv where
  trace_to_langfuse : Bool
  trace_to_grafana : Bool
  langfuse_available : Bool
  otel_available : Bool
  langfuse_keys_set : Bool
  grafana_creds_set : Bool
  state : StateMap
  sessions : List QSession
  queue : QFile
  langfuse_reachable : Bool
  grafana_reachable : Bool
  langfuse_init_ok : Bool
  grafana_init_ok : Bool
  save_state_fault : Bool
  now : String

/-- `main` (langfuse_hook.py:834-1039), at the granularity of its exit
paths.  Every `sys.exit` in the source passes `0`; the queue-only branch
ends with an unguarded `save_state(state)` whose failure escapes. -/
def main_model (env : MainEnv) : MainOutcome :=
  let langfuse_enabled := env.trace_to_langfuse
  let grafana_enabled := env.trace_to_grafana
  if !langfuse_enabled && !grafana_enabled then .exit 0
  else
    let langfuse_enabled := langfuse_enabled && env.langfuse_available && env.langfuse_keys_set
    let grafana_enabled := grafana_enabled && env.otel_available && env.grafana_creds_set
    if !langfuse_enabled && !grafana_enabled then .exit 0
    else if env.sessions.isEmpty then .exit 0
    else
      let langfuse_reachable := langfuse_enabled && env.langfuse_reachable
      let grafana_reachable := grafana_enabled && env.grafana_reachable
      if !langfuse_reachable && !grafana_reachable then
        let _ := queue_only_loop env.now env.sessions env.state env.queue
        if env.save_state_fault then .uncaught else .exit 0
      else
        let creators :=
          (if langfuse_reachable && env.langfuse_init_ok then ["langfuse"] else [])
            ++ (if grafana_reachable && env.grafana_init_ok then ["grafana"] else [])
        if creators.isEmpty then .exit 0
        else .exit 0

/-!
 ## Concrete record fixtures (the spec's §8 example sequences)
-/

/-- A `{"type": "text", "text": s}` content block. -/
def textBlock (s : String) : PyVal :=
  .dict [("type", .str "text"), ("text", .str s)]

/-- `User(A)`. -/
def recUserA : PyVal := .dict [("type", .str "user"), ("content", .str "A")]

/-- `User(B)`. -/
def recUserB : PyVal := .dict [("type", .str "user"), ("content", .str "B")]

/-- `Assistant(msgId=1, "hi")`. -/
def recAsstHi : PyVal := .dict [("type", .str "assistant"),
  ("message", .dict [("id", .str "m1"), ("content", .list [textBlock "hi"])])]

/-- `Assistant(msgId=1, " there")`. -/
def recAsstThere : PyVal := .dict [("type", .str "assistant"),
  ("message", .dict [("id", .str "m1"), ("content", .list [textBlock " there"])])]

/-- `Assistant(msgId=2, "ok")`. -/
def recAsstOk : PyVal := .dict [("type", .str "assistant"),
  ("message", .dict [("id", .str "m2"), ("content", .list [textBlock "ok"])])]

/-- An Assistant record carrying no `messageId`. -/
def recAsstNoId : PyVal := .dict [("type", .str "assistant"),
  ("message", .dict [("content", .list [textBlock "ok"])])]

/-- `Assistant(tool_use id=42)` (with `messageId` m1). -/
def recAsstTool : PyVal := .dict [("type", .str "assistant"),
  ("message", .dict [("id", .str "m1"),
    ("content", .list [.dict [("type", .str "tool_use"), ("id", .str "42"),
                              ("name", .str "Read"), ("input", .dict [])]])])]

/-- `ToolResultCarrier(tool_use_id=42)`: a user-kind record whose content
is a tool-result block. -/
def recToolCarrier : PyVal := .dict [("type", .str "user"),
  ("content", .list [.dict [("type", .str "tool_result"), ("tool_use_id", .str "42"),
                            ("content", .str "out")]])]

/-!
 ## Claim theorems
-/

/-- Claim C1: for the record sequence `[User(A), Assistant(m1,"hi"),
Assistant(m1," there"), User(B), Assistant(m2,"ok")]` with starting
turn count `t`, the grouping pass shared by `process_transcript` and
`queue_turns_from_messages` emits exactly two turns: turn `t+1` with
user `A` and one assistant message whose content is the in-order merge
of `"hi"` then `" there"`, and turn `t+2` with user `B` and one
assistant message `"ok"`. -/
theorem turn_grouping_two_turns (t : Nat) :
    group_turns [recUserA, recAsstHi, recAsstThere, recUserB, recAsstOk] t =
      .ok [⟨t + 1, recUserA,
            [.dict [("type", .str "assistant"),
              ("message", .dict [("id", .str "m1"),
                ("content", .list [textBlock "hi", textBlock " there"])])]], []⟩,
           ⟨t + 2, recUserB,
            [.dict [("type", .str "assistant"),
              ("message", .dict [("id", .str "m2"),
                ("content", .list [textBlock "ok"])])]], []⟩] := by
  rfl

/-- Claim C6: in `[User(A), Assistant(tool_use id=42),
ToolResultCarrier(42), User(B), Assistant(m2,"ok")]` the carrier record,
arriving strictly before the next genuine user message, lands in turn 1's
`tool_results`, and turn 2's `tool_results` is empty — the accumulator is
reset when the new user message starts its turn. -/
theorem tool_result_attribution (t : Nat) :
    group_turns [recUserA, recAsstTool, recToolCarrier, recUserB, recAsstOk] t =
      .ok [⟨t + 1, recUserA,
            [.dict [("type", .str "assistant"),
              ("message", .dict [("id", .str "m1"),
                ("content", .list [.dict [("type", .str "tool_use"), ("id", .str "42"),
                                          ("name", .str "Read"), ("input", .dict [])]])])]],
            [recToolCarrier]⟩,
           ⟨t + 2, recUserB,
            [.dict [("type", .str "assistant"),
              ("message", .dict [("id", .str "m2"),
                ("content", .list [textBlock "ok"])])]], []⟩] := by
  rfl

/-- Claim C2 counterexample: an Assistant record with no `messageId` is
*not* flushed as a standalone message.  After `[User(A), Assistant(no
id)]` the grouping pass emits zero turns — the id-less record sits in
`current_assistant_parts` under a falsy `current_msg_id`, the finalize
guard `if current_msg_id and current_assistant_parts` never fires, and
the accumulated parts are dropped; the same happens at the next user
message, so `[User(A), Assistant(no id), User(B), Assistant(m2)]` yields
only the turn for `B`. -/
theorem noid_assistant_dropped_counterexample :
    group_turns [recUserA, recAsstNoId] 0 = .ok [] ∧
    group_turns [recUserA, recAsstNoId, recUserB, recAsstOk] 0 =
      .ok [⟨1, recUserB, [recAsstOk], []⟩] :=
  ⟨rfl, rfl⟩

/-- Claim C3 counterexample: the checkpoint *does* advance past an
incomplete trailing turn.  Processing `[User(A)]` from checkpoint
`⟨0, 0⟩` emits nothing but sets `last_line := 1`, consuming the user
line; the next invocation (transcript grown by `Assistant(m1)`,
`User(B)`, `Assistant(m2)`) reads only from line 1 and emits a single
turn whose user message is `B` — the turn for `A` is never emitted, so a
turn *is* lost across the invocation boundary. -/
theorem incomplete_turn_lost_counterexample :
    process_transcript [some recUserA] ⟨0, 0⟩ = .ok ([], ⟨1, 0⟩) ∧
    process_transcript [some recUserA, some recAsstHi, some recUserB, some recAsstOk]
        ⟨1, 0⟩ =
      .ok ([⟨1, recUserB, [recAsstOk], []⟩], ⟨4, 1⟩) ∧
    recUserB ≠ recUserA :=
  ⟨rfl, rfl, by simp [recUserA, recUserB]⟩

/-- Claim C3 amended: a trailing user message with zero completed
assistant messages yields no turn and leaves `turn_count` unchanged, but
`process_transcript` still advances `last_line` to the full line count,
consuming the pending user message; the next invocation therefore
numbers later turns from the unchanged `turn_count` while the pending
turn itself is never emitted. -/
theorem incomplete_turn_consumed (t : Nat) :
    process_transcript [some recUserA] ⟨0, t⟩ = .ok ([], ⟨1, t⟩) ∧
    process_transcript [some recUserA, some recAsstHi, some recUserB, some recAsstOk]
        ⟨1, t⟩ =
      .ok ([⟨t + 1, recUserB, [recAsstOk], []⟩], ⟨4, t + 1⟩) :=
  ⟨rfl, rfl⟩

/-- Claim C7 counterexample: on `{"message": "hello"}` — a dict whose
`message` field is not a dict — all four record accessors raise
`AttributeError` (`.get` on a `str`) instead of returning a sentinel. -/
theorem record_model_not_total :
    get_content (.dict [("message", .str "hello")]) = .error "AttributeError" ∧
    is_tool_result (.dict [("message", .str "hello")]) = .error "AttributeError" ∧
    get_tool_calls (.dict [("message", .str "hello")]) = .error "AttributeError" ∧
    get_text_content (.dict [("message", .str "hello")]) = .error "AttributeError" :=
  ⟨rfl, rfl, rfl, rfl⟩

theorem asm_step_assistant_continuation (t : Nat) (s : AsmState) (msg mid : PyVal)
    (hrole : role_of msg = .ok (.str "assistant"))
    (hid : assistant_msg_id msg = .ok mid)
    (hmid : mid.truthy = false) :
    asm_step t s msg =
      .ok { s with current_assistant_parts := s.current_assistant_parts ++ [msg] } := by
  simp [asm_step, hrole, hid, hmid, Bind.bind, Except.bind, Pure.pure, Except.pure,
    show (PyVal.str "assistant" == PyVal.str "user") = false from rfl,
    show (PyVal.str "assistant" == PyVal.str "assistant") = true from rfl]

theorem asm_step_user_reset (t : Nat) (s : AsmState) (msg : PyVal)
    (hrole : role_of msg = .ok (.str "user"))
    (htr : is_tool_result msg = .ok false)
    (hmid : s.current_msg_id.truthy = false)
    (hass : s.current_assistants.isEmpty = true) :
    asm_step t s msg =
      .ok { s with
            current_user := msg
            current_assistants := []
            current_assistant_parts := []
            current_msg_id := PyVal.none
            current_tool_results := [] } := by
  simp [asm_step, hrole, htr, hmid, hass, Bind.bind, Except.bind, Pure.pure, Except.pure,
    show (PyVal.str "user" == PyVal.str "user") = true from rfl]

theorem noid_run (t : Nat) :
    ∀ (gens : List PyVal),
      (∀ a ∈ gens, role_of a = .ok (.str "assistant") ∧
        ∃ mid, assistant_msg_id a = .ok mid ∧ mid.truthy = false) →
      ∀ s : AsmState,
        asm_run t s gens =
          ({ s with current_assistant_parts := s.current_assistant_parts ++ gens },
           Option.none) := by
  intro gens
  induction gens with
  | nil => intro _ s; simp [asm_run]
  | cons a rest ih =>
      intro h s
      obtain ⟨hrole, mid, hid, hmid⟩ := h a (List.mem_cons_self a rest)
      rw [asm_run, asm_step_assistant_continuation t s a mid hrole hid hmid]
      dsimp only
      rw [ih (fun b hb => h b (List.mem_cons_of_mem a hb))]
      simp

theorem noid_turn_dropped (t : Nat) (u : PyVal) (gens : List PyVal)
    (hu : role_of u = .ok (.str "user"))
    (htu : is_tool_result u = .ok false)
    (h : ∀ a ∈ gens, role_of a = .ok (.str "assistant") ∧
      ∃ mid, assistant_msg_id a = .ok mid ∧ mid.truthy = false) :
    group_turns (u :: gens) t = .ok [] := by
  unfold group_turns group_turns_partial
  rw [asm_run, asm_step_user_reset t AsmState.init u hu htu rfl rfl]
  dsimp only
  rw [noid_run t gens h]
  simp [asm_finish, AsmState.init, PyVal.truthy, Bind.bind, Except.bind, Pure.pure,
    Except.pure]

/-- Records on which the `message` field, when present, is a dict — the
domain on which the accessors cannot hit the `.get`-on-a-non-dict
`AttributeError`. -/
def message_field_ok : PyVal → Bool
  | .dict d =>
      if dmem d "message" then
        match dget d "message" with
        | .dict _ => true
        | _ => false
      else true
  | _ => true

/-- A content block whose `text` field (default `""`) is a string, so the
final `"\n".join` cannot raise `TypeError`. -/
def text_item_ok : PyVal → Bool
  | .dict d =>
      if dget d "type" == .str "text" then
        match dgetD d "text" (.str "") with
        | .str _ => true
        | _ => false
      else true
  | _ => true

/-- Content whose collected text parts are all strings. -/
def content_text_ok : PyVal → Bool
  | .list items => items.all text_item_ok
  | _ => true

theorem get_content_total (msg : PyVal) (h : message_field_ok msg = true) :
    ∃ v, get_content msg = .ok v := by
  cases msg with
  | dict d =>
      unfold get_content
      unfold message_field_ok at h
      by_cases hm : dmem d "message" = true
      · simp only [hm, if_true] at h ⊢
        cases hdg : dget d "message" <;> rw [hdg] at h <;> simp_all
      · simp only [hm, if_false] at h ⊢
        · exact ⟨_, rfl⟩
  | none => exact ⟨_, rfl⟩
  | bool b => exact ⟨_, rfl⟩
  | int n => exact ⟨_, rfl⟩
  | str s => exact ⟨_, rfl⟩
  | list xs => exact ⟨_, rfl⟩

theorem as_strings_collect (items : List PyVal)
    (h : ∀ item ∈ items, text_item_ok item = true) :
    ∃ l, as_strings (collect_text_parts items) = .ok l := by
  induction items with
  | nil => exact ⟨[], rfl⟩
  | cons item rest ih =>
      obtain ⟨l, hl⟩ := ih (fun b hb => h b (List.mem_cons_of_mem _ hb))
      have hitem := h item (List.mem_cons_self _ _)
      cases item with
      | dict d =>
          unfold collect_text_parts
          unfold text_item_ok at hitem
          by_cases hty : (dget d "type" == PyVal.str "text") = true
          · simp only [hty, if_true] at hitem ⊢
            cases hdt : dgetD d "text" (.str "") <;> rw [hdt] at hitem <;> simp_all
            rename_i s
            exact ⟨s :: l, by simp [as_strings, hl, Bind.bind, Except.bind]⟩
          · simp only [hty, if_false] at hitem ⊢
            exact ⟨l, hl⟩
      | str s =>
          exact ⟨s :: l, by simp [collect_text_parts, as_strings, hl, Bind.bind, Except.bind]⟩
      | none => simpa [collect_text_parts] using ⟨l, hl⟩
      | bool b => simpa [collect_text_parts] using ⟨l, hl⟩
      | int n => simpa [collect_text_parts] using ⟨l, hl⟩
      | list xs => simpa [collect_text_parts] using ⟨l, hl⟩

theorem get_text_content_total_aux (msg : PyVal) (h : message_field_ok msg = true)
    (hc : ∀ c, get_content msg = .ok c → content_text_ok c = true) :
    ∃ s, get_text_content msg = .ok s := by
  obtain ⟨v, hv⟩ := get_content_total msg h
  have hcv := hc v hv
  cases v with
  | str s => exact ⟨s, by simp [get_text_content, hv, Bind.bind, Except.bind]⟩
  | list items =>
      have hall : ∀ item ∈ items, text_item_ok item = true := by
        simpa [content_text_ok, List.all_eq_true] using hcv
      obtain ⟨l, hl⟩ := as_strings_collect items hall
      exact ⟨String.intercalate "\n" l,
        by simp [get_text_content, hv, hl, Bind.bind, Except.bind]⟩
  | none => exact ⟨"", by simp [get_text_content, hv, Bind.bind, Except.bind]⟩
  | bool b => exact ⟨"", by simp [get_text_content, hv, Bind.bind, Except.bind]⟩
  | int n => exact ⟨"", by simp [get_text_content, hv, Bind.bind, Except.bind]⟩
  | dict kvs => exact ⟨"", by simp [get_text_content, hv, Bind.bind, Except.bind]⟩

/-- Claim C7 amended: the four record accessors are total and
sentinel-returning on every record whose `message` field, when present,
is a dict (for `get_text_content`, additionally when the collected text
parts are strings); a record violating that — e.g. `{"message": "hello"}`
— makes all four raise `AttributeError`, and a text block with a non-str
`text` field makes `get_text_content` raise `TypeError`. -/
theorem record_model_total_on_wellformed (msg : PyVal)
    (h : message_field_ok msg = true) :
    (∃ v, get_content msg = .ok v) ∧
    (∃ b, is_tool_result msg = .ok b) ∧
    (∃ l, get_tool_calls msg = .ok l) ∧
    ((∀ c, get_content msg = .ok c → content_text_ok c = true) →
      ∃ s, get_text_content msg = .ok s) := by
  obtain ⟨v, hv⟩ := get_content_total msg h
  refine ⟨⟨v, hv⟩, ?_, ?_, fun hc => get_text_content_total_aux msg h hc⟩
  · cases v <;> simp [is_tool_result, hv, Bind.bind, Except.bind]
  · cases v <;> simp [get_tool_calls, hv, Bind.bind, Except.bind]

theorem record_model_total_witness :
    message_field_ok (.dict [("content", .str "hi")]) = true ∧
    ((∃ v, get_content (.dict [("content", .str "hi")]) = .ok v) ∧
     (∃ b, is_tool_result (.dict [("content", .str "hi")]) = .ok b) ∧
     (∃ l, get_tool_calls (.dict [("content", .str "hi")]) = .ok l) ∧
     ((∀ c, get_content (.dict [("content", .str "hi")]) = .ok c →
        content_text_ok c = true) →
       ∃ s, get_text_content (.dict [("content", .str "hi")]) = .ok s)) :=
  ⟨rfl, record_model_total_on_wellformed (.dict [("content", .str "hi")]) rfl⟩

/-- Claim C2 amended: an Assistant record carrying no (truthy)
`messageId` is appended to the current accumulation as a *continuation*
(joining the in-progress identified message, if any), not flushed as a
standalone entry; consequently a turn whose assistant records all lack a
`messageId` accumulates them under a falsy `current_msg_id` and emits no
turn at all — the parts are dropped at finalisation. -/
theorem noid_assistant_is_continuation :
    (∀ (t : Nat) (s : AsmState) (msg mid : PyVal),
      role_of msg = .ok (.str "assistant") →
      assistant_msg_id msg = .ok mid →
      mid.truthy = false →
      asm_step t s msg =
        .ok { s with current_assistant_parts := s.current_assistant_parts ++ [msg] }) ∧
    (∀ (t : Nat) (u : PyVal) (gens : List PyVal),
      role_of u = .ok (.str "user") →
      is_tool_result u = .ok false →
      (∀ a ∈ gens, role_of a = .ok (.str "assistant") ∧
        ∃ mid, assistant_msg_id a = .ok mid ∧ mid.truthy = false) →
      group_turns (u :: gens) t = .ok []) :=
  ⟨asm_step_assistant_continuation, noid_turn_dropped⟩

theorem noid_assistant_is_continuation_witness :
    asm_step 0 AsmState.init recAsstNoId =
      .ok { AsmState.init with
            current_assistant_parts := AsmState.init.current_assistant_parts ++ [recAsstNoId] } ∧
    group_turns [recUserA, recAsstNoId] 0 = .ok [] :=
  ⟨noid_assistant_is_continuation.1 0 AsmState.init recAsstNoId PyVal.none rfl rfl rfl,
   noid_assistant_is_continuation.2 0 recUserA [recAsstNoId] rfl rfl
     (fun a ha => by
        simp only [List.mem_singleton] at ha
        subst ha
        exact ⟨rfl, PyVal.none, rfl, rfl⟩)⟩

/-- The effect of `queue_trace` on a queued dict trace: `queued_at` is
assigned (overwriting any existing value) before the line is written.
The non-dict fallback is unreachable for the dict hypotheses used below. -/
def py_set_queued_at (now : String) : PyVal → PyVal
  | .dict d => .dict (dset d "queued_at" (.str now))
  | v => v

/-- The `(trace index, creator)` delivery attempts made for traces
`start, start+1, ..., start+n-1`, each against every creator in order. -/
def attempts_from (creators : List String) : Nat → Nat → List (Nat × String)
  | _, 0 => []
  | start, m + 1 =>
      creators.map (fun c => (start, c)) ++ attempts_from creators (start + 1) m

theorem load_lines_corrupt (lines : List (Option PyVal))
    (h : Option.none ∈ lines) : ∀ acc, load_lines lines acc = [] := by
  induction lines with
  | nil => cases h
  | cons hd tl ih =>
      intro acc
      cases hd with
      | none => simp [load_lines]
      | some t =>
          have : Option.none ∈ tl := by
            rcases List.mem_cons.mp h with h1 | h2
            · exact absurd h1.symm (by simp)
            · exact h2
          simp [load_lines, ih this]

theorem queue_trace_fold (now : String) :
    ∀ (rem : List PyVal) (ls : List (Option PyVal)),
      (∀ tr ∈ rem, ∃ d, tr = .dict d) →
      rem.foldlM (fun q t => queue_trace now t q) (some ls : QFile) =
        .ok (some (ls ++ rem.map fun tr => some (py_set_queued_at now tr))) := by
  intro rem
  induction rem with
  | nil => intro ls _; simp [Pure.pure, Except.pure]
  | cons t rest ih =>
      intro ls h
      obtain ⟨d, hd⟩ := h t (List.mem_cons_self t rest)
      subst hd
      rw [List.foldlM_cons]
      have hq : queue_trace now (.dict d) (some ls) =
          .ok (some (ls ++ [some (.dict (dset d "queued_at" (.str now)))])) := rfl
      rw [hq]
      show List.foldlM (fun q t => queue_trace now t q)
          (some (ls ++ [some (.dict (dset d "queued_at" (.str now)))])) rest = _
      have hih := ih (ls ++ [some (PyVal.dict (dset d "queued_at" (PyVal.str now)))])
        (fun b hb => h b (List.mem_cons_of_mem _ hb))
      rw [hih]
      simp [py_set_queued_at]

theorem requeue_all_ok (now : String) (rem : List PyVal)
    (h : ∀ tr ∈ rem, ∃ d, tr = .dict d) (hne : rem ≠ []) :
    requeue_all now rem =
      .ok (some (rem.map fun tr => some (py_set_queued_at now tr))) := by
  cases rem with
  | nil => exact absurd rfl hne
  | cons t rest =>
      obtain ⟨d, hd⟩ := h t (List.mem_cons_self t rest)
      subst hd
      unfold requeue_all clear_queue
      rw [List.foldlM_cons]
      have hq : queue_trace now (.dict d) Option.none =
          .ok (some [some (.dict (dset d "queued_at" (.str now)))]) := rfl
      rw [hq]
      show List.foldlM (fun q t => queue_trace now t q)
          (some [some (.dict (dset d "queued_at" (.str now)))]) rest = _
      have hfold := queue_trace_fold now rest
        [some (PyVal.dict (dset d "queued_at" (PyVal.str now)))]
        (fun b hb => h b (List.mem_cons_of_mem _ hb))
      rw [hfold]
      simp [py_set_queued_at]

theorem drain_go_clean (creators : List String) (sf : Nat → Bool) (now : String) :
    ∀ (pending : List PyVal) (start : Nat) (acc : List (Nat × String)),
      (∀ i, i < pending.length → sf (start + i) = false) →
      drain_go creators sf now pending start acc =
        .ok ⟨start + pending.length, Option.none,
             acc ++ attempts_from creators start pending.length⟩ := by
  intro pending
  induction pending with
  | nil => intro start acc _; simp [drain_go, attempts_from, clear_queue]
  | cons t rest ih =>
      intro start acc h
      have h0 : sf start = false := by simpa using h 0 (by simp)
      rw [drain_go, h0]
      simp only [Bool.false_eq_true, if_false]
      have hshift : ∀ i, i < rest.length → sf (start + 1 + i) = false := by
        intro i hi
        have heq : start + 1 + i = start + (i + 1) := by omega
        rw [heq]
        exact h (i + 1) (by simpa using Nat.succ_lt_succ hi)
      rw [ih (start + 1) (acc ++ creators.map fun c => (start, c)) hshift]
      simp [attempts_from, Nat.add_comm, Nat.add_assoc, Nat.add_left_comm]

theorem drain_go_abort (creators : List String) (sf : Nat → Bool) (now : String) :
    ∀ (k : Nat) (pending : List PyVal) (start : Nat) (acc : List (Nat × String)),
      (∀ tr ∈ pending, ∃ d, tr = .dict d) →
      k < pending.length →
      (∀ i, i < k → sf (start + i) = false) →
      sf (start + k) = true →
      drain_go creators sf now pending start acc =
        .ok ⟨start + k,
             some ((pending.drop k).map fun tr => some (py_set_queued_at now tr)),
             acc ++ attempts_from creators start k⟩ := by
  intro k
  induction k with
  | zero =>
      intro pending start acc hd hk _ hfail
      cases pending with
      | nil => simp at hk
      | cons t rest =>
          rw [drain_go]
          simp only [Nat.add_zero] at hfail
          rw [hfail]
          simp only [if_true]
          rw [requeue_all_ok now (t :: rest) hd (by simp)]
          simp [attempts_from, Bind.bind, Except.bind, Pure.pure, Except.pure]
  | succ k ih =>
      intro pending start acc hd hk hpre hfail
      cases pending with
      | nil => simp at hk
      | cons t rest =>
          have h0 : sf start = false := by simpa using hpre 0 (Nat.succ_pos k)
          rw [drain_go, h0]
          simp only [Bool.false_eq_true, if_false]
          have hshift : ∀ i, i < k → sf (start + 1 + i) = false := by
            intro i hi
            have heq : start + 1 + i = start + (i + 1) := by omega
            rw [heq]
            exact hpre (i + 1) (Nat.succ_lt_succ hi)
          have hfail' : sf (start + 1 + k) = true := by
            have heq : start + 1 + k = start + (k + 1) := by omega
            rw [heq]
            exact hfail
          rw [ih rest (start + 1) (acc ++ creators.map fun c => (start, c))
                (fun b hb => hd b (List.mem_cons_of_mem _ hb))
                (Nat.lt_of_succ_lt_succ (by simpa using hk))
                hshift hfail']
          simp [attempts_from, Nat.add_comm, Nat.add_assoc, Nat.add_left_comm]

theorem attempts_from_mem (creators : List String) :
    ∀ (n start i : Nat) (c : String),
      (i, c) ∈ attempts_from creators start n ↔
        (start ≤ i ∧ i < start + n ∧ c ∈ creators) := by
  intro n
  induction n with
  | zero => intro start i c; simp [attempts_from]; omega
  | succ n ih =>
      intro start i c
      simp only [attempts_from, List.mem_append, List.mem_map, ih, Prod.mk.injEq]
      constructor
      · rintro (⟨c', hc', hi, hc⟩ | ⟨h1, h2, h3⟩)
        · subst hi; subst hc; exact ⟨Nat.le_refl _, by omega, hc'⟩
        · exact ⟨by omega, by omega, h3⟩
      · rintro ⟨h1, h2, h3⟩
        rcases Nat.eq_or_lt_of_le h1 with heq | hlt
        · exact Or.inl ⟨c, h3, heq, rfl⟩
        · exact Or.inr ⟨hlt, by omega, h3⟩

/-- Claim C4: for a queue of `n` (dict-shaped) traces, if a structural
exception strikes while trace `k` is being handled after `[0..k)` were
fully processed, `drain_queue` returns `k` and the persisted queue holds
exactly the traces `[k..n)` in their original order (re-queued with a
fresh `queued_at`); with no structural failure the queue file is removed
and every one of the `n` traces was attempted against every trace
creator (third conjunct: the attempt list is exactly the
index-by-creator product). -/
theorem drain_queue_partial_progress :
    (∀ (q : QFile) (creators : List String) (sf : Nat → Bool) (now : String) (k : Nat),
      (∀ tr ∈ load_queued_traces q, ∃ d, tr = .dict d) →
      k < (load_queued_traces q).length →
      (∀ i, i < k → sf i = false) →
      sf k = true →
      drain_queue q creators sf now =
        .ok ⟨k,
             some (((load_queued_traces q).drop k).map fun tr =>
               some (py_set_queued_at now tr)),
             attempts_from creators 0 k⟩) ∧
    (∀ (q : QFile) (creators : List String) (sf : Nat → Bool) (now : String),
      (∀ i, i < (load_queued_traces q).length → sf i = false) →
      0 < (load_queued_traces q).length →
      drain_queue q creators sf now =
        .ok ⟨(load_queued_traces q).length, Option.none,
             attempts_from creators 0 (load_queued_traces q).length⟩) ∧
    (∀ (creators : List String) (n start i : Nat) (c : String),
      (i, c) ∈ attempts_from creators start n ↔
        (start ≤ i ∧ i < start + n ∧ c ∈ creators)) := by
  refine ⟨?_, ?_, fun creators n start i c => attempts_from_mem creators n start i c⟩
  · intro q creators sf now k hd hk hpre hfail
    unfold drain_queue
    have hne : (load_queued_traces q).isEmpty = false := by
      cases hq : load_queued_traces q with
      | nil => rw [hq] at hk; simp at hk
      | cons a l => simp
    simp only [hne, Bool.false_eq_true, if_false]
    have := drain_go_abort creators sf now k (load_queued_traces q) 0 [] hd hk
      (fun i hi => by simpa using hpre i hi)
      (by simpa using hfail)
    simpa using this
  · intro q creators sf now hok hn
    unfold drain_queue
    have hne : (load_queued_traces q).isEmpty = false := by
      cases hq : load_queued_traces q with
      | nil => rw [hq] at hn; simp at hn
      | cons a l => simp
    simp only [hne, Bool.false_eq_true, if_false]
    have := drain_go_clean creators sf now (load_queued_traces q) 0 []
      (fun i hi => by simpa using hok i hi)
    simpa using this

theorem drain_queue_partial_progress_witness :
    (∀ tr ∈ load_queued_traces
        (some [some (PyVal.dict [("a", PyVal.str "x")]), some (PyVal.dict [])]),
      ∃ d, tr = PyVal.dict d) ∧
    1 < (load_queued_traces
        (some [some (PyVal.dict [("a", PyVal.str "x")]), some (PyVal.dict [])])).length ∧
    drain_queue (some [some (PyVal.dict [("a", PyVal.str "x")]), some (PyVal.dict [])])
        ["langfuse", "grafana"] (fun i => decide (1 ≤ i)) "T" =
      .ok ⟨1, some [some (PyVal.dict [("queued_at", PyVal.str "T")])],
           [(0, "langfuse"), (0, "grafana")]⟩ := by
  have hd : ∀ tr ∈ load_queued_traces
      (some [some (PyVal.dict [("a", PyVal.str "x")]), some (PyVal.dict [])]),
      ∃ d, tr = PyVal.dict d := by
    intro tr htr
    simp [load_queued_traces, load_lines] at htr
    rcases htr with rfl | rfl
    · exact ⟨_, rfl⟩
    · exact ⟨_, rfl⟩
  refine ⟨hd, by decide, ?_⟩
  exact drain_queue_partial_progress.1
    (some [some (PyVal.dict [("a", PyVal.str "x")]), some (PyVal.dict [])])
    ["langfuse", "grafana"] (fun i => decide (1 ≤ i)) "T" 1 hd (by decide)
    (fun i hi => by
      have : i = 0 := by omega
      subst this
      rfl)
    rfl

theorem dlookup_dset_same {α : Type} (d : List (String × α)) (k : String) (v : α) :
    dlookup (dset d k v) k = some v := by
  induction d with
  | nil => simp [dset, dlookup]
  | cons kv rest ih =>
      obtain ⟨k', v'⟩ := kv
      by_cases hk : k' = k
      · subst hk; simp [dset, dlookup]
      · simp [dset, dlookup, hk, ih]

theorem dlookup_dset_other {α : Type} (d : List (String × α)) (k key : String)
    (v : α) (h : key ≠ k) :
    dlookup (dset d k v) key = dlookup d key := by
  induction d with
  | nil =>
      have : ¬(k = key) := fun habs => h habs.symm
      simp [dset, dlookup, this]
  | cons kv rest ih =>
      obtain ⟨k', v'⟩ := kv
      by_cases hk : k' = k
      · have h1 : ¬(k = key) := fun habs => h habs.symm
        simp [dset, dlookup, hk, h1]
      · by_cases hkey : k' = key
        · subst hkey; simp [dset, dlookup, hk]
        · simp [dset, dlookup, hk, hkey, ih]

/-- Claim C9: when `drain_queue` aborts and re-queues the undrained
remainder, each trace is written back as the original dict with
`queued_at` assigned the re-queuing time — every other field keeps its
original value (and its position), while any original `queuedAt`
timestamp is overwritten. -/
theorem requeue_overwrites_queued_at :
    (∀ (now : String) (rem : List PyVal),
      (∀ tr ∈ rem, ∃ d, tr = .dict d) → rem ≠ [] →
      requeue_all now rem =
        .ok (some (rem.map fun tr => some (py_set_queued_at now tr)))) ∧
    (∀ (now : String) (d : List (String × PyVal)),
      py_set_queued_at now (.dict d) = .dict (dset d "queued_at" (.str now)) ∧
      dget (dset d "queued_at" (.str now)) "queued_at" = .str now ∧
      ∀ key, key ≠ "queued_at" →
        dget (dset d "queued_at" (.str now)) key = dget d key) :=
  ⟨requeue_all_ok,
   fun now d =>
     ⟨rfl,
      by simp [dget, dlookup_dset_same],
      fun key hk => by simp [dget, dlookup_dset_other d "queued_at" key (.str now) hk]⟩⟩

theorem requeue_overwrites_queued_at_witness :
    requeue_all "N" [PyVal.dict [("queued_at", PyVal.str "old"), ("x", PyVal.int 1)]] =
      .ok (some [some (PyVal.dict [("queued_at", PyVal.str "N"), ("x", PyVal.int 1)])]) ∧
    dget (dset [("queued_at", PyVal.str "old"), ("x", PyVal.int 1)]
        "queued_at" (PyVal.str "N")) "x" = PyVal.int 1 :=
  ⟨requeue_overwrites_queued_at.1 "N"
      [PyVal.dict [("queued_at", PyVal.str "old"), ("x", PyVal.int 1)]]
      (fun tr htr => by
        simp only [List.mem_singleton] at htr
        subst htr
        exact ⟨_, rfl⟩)
      (by simp),
   (requeue_overwrites_queued_at.2 "N"
      [("queued_at", PyVal.str "old"), ("x", PyVal.int 1)]).2.2 "x" (by decide)⟩

/-- Claim C10: if any line of the queue file fails to parse,
`load_queued_traces` returns the empty list — every queued trace,
including well-formed ones, is ignored for that run — while the queue
file itself is untouched; `drain_queue` consequently attempts nothing,
returns 0, and does not clear the queue. -/
theorem corrupt_queue_line_disables_drain
    (lines : List (Option PyVal)) (creators : List String) (sf : Nat → Bool)
    (now : String) (h : Option.none ∈ lines) :
    load_queued_traces (some lines) = [] ∧
    drain_queue (some lines) creators sf now = .ok ⟨0, some lines, []⟩ := by
  have hl : load_queued_traces (some lines) = [] := load_lines_corrupt lines h []
  refine ⟨hl, ?_⟩
  unfold drain_queue
  rw [hl]
  rfl

theorem corrupt_queue_line_disables_drain_witness :
    Option.none ∈ [some (PyVal.dict [("session_id", PyVal.str "s")]), Option.none] ∧
    (load_queued_traces
        (some [some (PyVal.dict [("session_id", PyVal.str "s")]), Option.none]) = [] ∧
     drain_queue (some [some (PyVal.dict [("session_id", PyVal.str "s")]), Option.none])
        ["langfuse"] (fun _ => false) "T" =
       .ok ⟨0, some [some (PyVal.dict [("session_id", PyVal.str "s")]), Option.none], []⟩) :=
  ⟨by simp,
   corrupt_queue_line_disables_drain
     [some (PyVal.dict [("session_id", PyVal.str "s")]), Option.none]
     ["langfuse"] (fun _ => false) "T" (by simp)⟩

theorem enqueue_foldl (now sid project : String) :
    ∀ (ts : List Turn) (ls : List (Option PyVal)),
      ts.foldl (fun qq t => enqueue_dict now (trace_fields sid project t) qq)
          (some ls : QFile) =
        some (ls ++ ts.map fun t =>
          some (.dict (dset (trace_fields sid project t) "queued_at" (.str now)))) := by
  intro ts
  induction ts with
  | nil => intro ls; simp
  | cons t rest ih =>
      intro ls
      rw [List.foldl_cons]
      show List.foldl (fun qq t => enqueue_dict now (trace_fields sid project t) qq)
        (some (ls ++ [some (.dict (dset (trace_fields sid project t) "queued_at" (.str now)))])) rest = _
      rw [ih]
      simp

theorem queue_only_session_success (now sid project : String)
    (lines : List (Option PyVal)) (st : StateMap) (q : QFile) (ts : List Turn)
    (hlt : ((dlookup st sid).getD ⟨0, 0⟩).last_line < lines.length)
    (hmsgs : (parse_new_messages lines
        ((dlookup st sid).getD ⟨0, 0⟩).last_line).isEmpty = false)
    (hgroup : group_turns_partial ((dlookup st sid).getD ⟨0, 0⟩).turn_count
        (parse_new_messages lines ((dlookup st sid).getD ⟨0, 0⟩).last_line) =
      (ts, Option.none)) :
    (queue_only_session now st q ⟨sid, lines, project⟩).1 =
      dset st sid
        ⟨lines.length, ((dlookup st sid).getD ⟨0, 0⟩).turn_count + ts.length⟩ ∧
    (ts = [] → (queue_only_session now st q ⟨sid, lines, project⟩).2 = q) ∧
    (ts ≠ [] → (queue_only_session now st q ⟨sid, lines, project⟩).2 =
      some ((q.getD []) ++ ts.map fun t =>
        some (.dict (dset (trace_fields sid project t) "queued_at" (.str now))))) := by
  unfold queue_only_session queue_turns_from_messages
  simp only [hgroup]
  rw [if_neg (Nat.not_le.mpr hlt)]
  simp only [hmsgs, Bool.false_eq_true, if_false]
  refine ⟨trivial, ?_, ?_⟩
  · intro hts; subst hts; rfl
  · intro hts
    cases ts with
    | nil => exact absurd rfl hts
    | cons t rest =>
        rw [List.foldl_cons]
        show List.foldl
            (fun qq t => enqueue_dict now (trace_fields sid project t) qq)
            (some ((q.getD []) ++
              [some (.dict (dset (trace_fields sid project t) "queued_at" (.str now)))]))
            rest = _
        rw [enqueue_foldl]
        simp

theorem queue_only_session_exception (now sid project : String)
    (lines : List (Option PyVal)) (st : StateMap) (q : QFile) (ts : List Turn)
    (e : String)
    (hlt : ((dlookup st sid).getD ⟨0, 0⟩).last_line < lines.length)
    (hmsgs : (parse_new_messages lines
        ((dlookup st sid).getD ⟨0, 0⟩).last_line).isEmpty = false)
    (hgroup : group_turns_partial ((dlookup st sid).getD ⟨0, 0⟩).turn_count
        (parse_new_messages lines ((dlookup st sid).getD ⟨0, 0⟩).last_line) =
      (ts, some e)) :
    (queue_only_session now st q ⟨sid, lines, project⟩).1 = st ∧
    (ts = [] → (queue_only_session now st q ⟨sid, lines, project⟩).2 = q) ∧
    (ts ≠ [] → (queue_only_session now st q ⟨sid, lines, project⟩).2 =
      some ((q.getD []) ++ ts.map fun t =>
        some (.dict (dset (trace_fields sid project t) "queued_at" (.str now))))) := by
  unfold queue_only_session queue_turns_from_messages
  simp only [hgroup]
  rw [if_neg (Nat.not_le.mpr hlt)]
  simp only [hmsgs, Bool.false_eq_true, if_false]
  refine ⟨trivial, ?_, ?_⟩
  · intro hts; subst hts; rfl
  · intro hts
    cases ts with
    | nil => exact absurd rfl hts
    | cons t rest =>
        rw [List.foldl_cons]
        show List.foldl
            (fun qq t => enqueue_dict now (trace_fields sid project t) qq)
            (some ((q.getD []) ++
              [some (.dict (dset (trace_fields sid project t) "queued_at" (.str now)))]))
            rest = _
        rw [enqueue_foldl]
        simp

/-- Claim C5 counterexample: queuing does *not* always advance the
checkpoint.  For the session `[User(A), Assistant(m1,"hi"), User(B),
"oops"]` — the last line JSON-parseable but not a dict, so
`msg.get("type")` raises `AttributeError` mid-pass — the turn for `A`,
completed before the exception, is durably queued, yet the per-session
handler leaves the state map unchanged: a newly assembled Turn was
queued while that session's checkpoint was not advanced, and the next
run will re-parse the same lines and queue the same turn again. -/
theorem queue_only_exception_counterexample :
    queue_only_session "T" [] Option.none
        ⟨"s", [some recUserA, some recAsstHi, some recUserB, some (.str "oops")],
         "proj"⟩ =
      ([], some [some (.dict (dset
        (trace_fields "s" "proj" ⟨1, recUserA, [recAsstHi], []⟩)
        "queued_at" (.str "T")))]) ∧
    role_of (.str "oops") = .error "AttributeError" :=
  ⟨rfl, rfl⟩

/-- Claim C5 amended: in the queue-only branch (zero backends healthy),
a discovered session whose grouping pass raises no exception has each
newly assembled turn appended to the durable queue exactly once, in
order, as a `queue_trace` payload, and its checkpoint entry advanced to
the consumed line count with `turn_count` incremented by the number of
queued turns — exactly as if delivered; but when the pass raises
mid-session (per-session `except`, langfuse_hook.py:940-942), the turns
already emitted stay durably queued while the checkpoint entry is left
unchanged, so those turns are re-assembled and re-queued on the next
run — queuing is at-least-once, not exactly-once. -/
theorem queue_only_turns_enqueued :
    (∀ (now sid project : String) (lines : List (Option PyVal)) (st : StateMap)
        (q : QFile) (ts : List Turn),
      ((dlookup st sid).getD ⟨0, 0⟩).last_line < lines.length →
      (parse_new_messages lines
        ((dlookup st sid).getD ⟨0, 0⟩).last_line).isEmpty = false →
      group_turns_partial ((dlookup st sid).getD ⟨0, 0⟩).turn_count
        (parse_new_messages lines ((dlookup st sid).getD ⟨0, 0⟩).last_line) =
        (ts, Option.none) →
      (queue_only_session now st q ⟨sid, lines, project⟩).1 =
        dset st sid
          ⟨lines.length, ((dlookup st sid).getD ⟨0, 0⟩).turn_count + ts.length⟩ ∧
      (ts = [] → (queue_only_session now st q ⟨sid, lines, project⟩).2 = q) ∧
      (ts ≠ [] → (queue_only_session now st q ⟨sid, lines, project⟩).2 =
        some ((q.getD []) ++ ts.map fun t =>
          some (.dict (dset (trace_fields sid project t) "queued_at" (.str now)))))) ∧
    (∀ (now sid project : String) (lines : List (Option PyVal)) (st : StateMap)
        (q : QFile) (ts : List Turn) (e : String),
      ((dlookup st sid).getD ⟨0, 0⟩).last_line < lines.length →
      (parse_new_messages lines
        ((dlookup st sid).getD ⟨0, 0⟩).last_line).isEmpty = false →
      group_turns_partial ((dlookup st sid).getD ⟨0, 0⟩).turn_count
        (parse_new_messages lines ((dlookup st sid).getD ⟨0, 0⟩).last_line) =
        (ts, some e) →
      (queue_only_session now st q ⟨sid, lines, project⟩).1 = st ∧
      (ts = [] → (queue_only_session now st q ⟨sid, lines, project⟩).2 = q) ∧
      (ts ≠ [] → (queue_only_session now st q ⟨sid, lines, project⟩).2 =
        some ((q.getD []) ++ ts.map fun t =>
          some (.dict (dset (trace_fields sid project t) "queued_at" (.str now)))))) :=
  ⟨queue_only_session_success, queue_only_session_exception⟩

theorem queue_only_turns_enqueued_witness :
    ((dlookup ([] : StateMap) "s").getD ⟨0, 0⟩).last_line <
      ([some recUserA, some recAsstOk] : List (Option PyVal)).length ∧
    group_turns_partial 0 (parse_new_messages [some recUserA, some recAsstOk] 0) =
      ([⟨1, recUserA, [recAsstOk], []⟩], Option.none) ∧
    (queue_only_session "T" [] Option.none ⟨"s", [some recUserA, some recAsstOk], "proj"⟩).1 =
      dset [] "s" ⟨2, 1⟩ ∧
    (queue_only_session "T" [] Option.none ⟨"s", [some recUserA, some recAsstOk], "proj"⟩).2 =
      some [some (.dict (dset (trace_fields "s" "proj" ⟨1, recUserA, [recAsstOk], []⟩)
        "queued_at" (.str "T")))] ∧
    group_turns_partial 0
        (parse_new_messages
          [some recUserA, some recAsstHi, some recUserB, some (.str "oops")] 0) =
      ([⟨1, recUserA, [recAsstHi], []⟩], some "AttributeError") ∧
    (queue_only_session "T" [] Option.none
        ⟨"s", [some recUserA, some recAsstHi, some recUserB, some (.str "oops")],
         "proj"⟩).1 = [] := by
  have h := queue_only_turns_enqueued.1 "T" "s" "proj" [some recUserA, some recAsstOk]
    [] Option.none [⟨1, recUserA, [recAsstOk], []⟩] (by decide) rfl rfl
  have he := (queue_only_turns_enqueued.2 "T" "s" "proj"
    [some recUserA, some recAsstHi, some recUserB, some (.str "oops")]
    [] Option.none [⟨1, recUserA, [recAsstHi], []⟩] "AttributeError"
    (by decide) rfl rfl).1
  refine ⟨by decide, rfl, h.1, ?_, rfl, he⟩
  have h2 := h.2.2 (by simp)
  simpa using h2

/-- A run with one enabled, configured Langfuse backend that fails its
health check (queue-only branch) and an I/O failure in the final
unguarded `save_state`. -/
def queueOnlyFaultEnv : MainEnv :=
  { trace_to_langfuse := true
    trace_to_grafana := false
    langfuse_available := true
    otel_available := false
    langfuse_keys_set := true
    grafana_creds_set := false
    state := []
    sessions := [⟨"s", [some recUserA], "proj"⟩]
    queue := Option.none
    langfuse_reachable := false
    grafana_reachable := false
    langfuse_init_ok := false
    grafana_init_ok := false
    save_state_fault := true
    now := "T" }

/-- The same run without the `save_state` I/O failure. -/
def queueOnlyCleanEnv : MainEnv :=
  { queueOnlyFaultEnv with save_state_fault := false }

/-- Claim C8 counterexample: with zero reachable backends, an I/O
failure in the unguarded `save_state(state)` ending the queue-only
branch escapes `main` — the process does not exit with status 0. -/
theorem main_exit_counterexample :
    main_model queueOnlyFaultEnv = .uncaught ∧
    MainOutcome.uncaught ≠ MainOutcome.exit 0 :=
  ⟨rfl, by decide⟩

/-- Claim C8 amended: every explicit exit in `main` passes status 0, so
`main` terminates with a success status on every path on which no
exception escapes an unguarded operation; an I/O failure in the
queue-only branch's final `save_state` (outside any `try`) is such an
escape and yields a failing status instead. -/
theorem main_exits_zero_without_unguarded_fault (env : MainEnv)
    (h : env.save_state_fault = false) :
    main_model env = .exit 0 := by
  unfold main_model
  split_ifs <;> simp_all

theorem main_exits_zero_witness :
    queueOnlyCleanEnv.save_state_fault = false ∧
    main_model queueOnlyCleanEnv = .exit 0 :=
  ⟨rfl, main_exits_zero_without_unguarded_fault queueOnlyCleanEnv rfl⟩
